import Mathlib

/-!
Verification of the compliance-check application (`src/app_v14.py`) against its
natural-language specification.

The development shallowly embeds the two cores of the program:

* the result-validation pipeline of `check_compliance` (lines 102-117): the
  raw model text is fence-stripped and fed to `json.loads`; the parse outcome
  is modelled as an `Option Json` value (`none` = `json.JSONDecodeError`),
  since `json.loads` itself is Python library code, not part of this
  repository.  Everything after the parse — `result.get("compliance_results",
  [])`, the inner `except (json.JSONDecodeError, KeyError)` handler and the
  outer `except Exception` handler — is embedded faithfully.

* the interactive highlight engine of `create_interactive_display`
  (lines 296-460 of the generated JavaScript): `splitIntoSentences`,
  `normalizeText`, the clause cleanup regexes, the three-pattern cascade, the
  whole-snippet fallback, `restoreText`, the scroll bookkeeping and the
  toggle semantics of `highlightSnippet`.  JavaScript regexes are embedded as
  a small token language (`PatTok`) covering exactly the regex shapes the
  program builds: case-insensitive literals, `\s*`, and the character class
  `[\s<br>]*` (whitespace, `<`, `b`, `r`, `>`).  `String.replace` with a
  global regex is embedded by `scanAux`, which reproduces the JavaScript
  left-to-right scan including its empty-match behaviour.  The layout-derived
  scroll destination of an applied highlight (computed in the browser from
  `offsetTop`/`clientHeight`) is an input `scrollTarget` of the `toggle`
  transition; the scroll listener of lines 304-307 is the `userScroll`
  transition.
-/

set_option maxRecDepth 40000

/-! ### JavaScript / Python character classes and basic string helpers -/

/-- The character class matched by the JavaScript `\s` escape (and, to the
    precision needed here, the default strip set of Python `str.strip`). -/
def isJsWhitespace (c : Char) : Bool :=
  c = ' ' || c = '\t' || c = '\n' || c = '\r' ||
  c = Char.ofNat 0x0b || c = Char.ofNat 0x0c ||
  c = Char.ofNat 0xa0 || c = Char.ofNat 0x1680 ||
  (0x2000 ≤ c.toNat && c.toNat ≤ 0x200a) ||
  c = Char.ofNat 0x2028 || c = Char.ofNat 0x2029 ||
  c = Char.ofNat 0x202f || c = Char.ofNat 0x205f ||
  c = Char.ofNat 0x3000 || c = Char.ofNat 0xfeff

/-- JavaScript `String.prototype.trim` / Python `str.strip`. -/
def jsTrim (s : String) : String :=
  String.mk (((s.data.dropWhile isJsWhitespace).reverse.dropWhile isJsWhitespace).reverse)

/-! ### ResultValidator: the JSON-parse stage of `check_compliance` -/

/-- Structured values produced by `json.loads`. -/
inductive Json where
  | null
  | bool (b : Bool)
  | num (n : Int)
  | str (s : String)
  | arr (elems : List Json)
  | obj (fields : List (String × Json))

/-- Python `dict.get key`: JSON objects built by `json.loads` keep the last
    occurrence of a duplicated key, hence the reverse lookup. -/
def pyDictGet (fields : List (String × Json)) (key : String) : Option Json :=
  (fields.reverse.find? (fun kv => kv.1 == key)).map (fun kv => kv.2)

/-- Field access on a `Json` value that may or may not be an object. -/
def jsonGet (j : Json) (key : String) : Option Json :=
  match j with
  | Json.obj fields => pyDictGet fields key
  | _ => none

/-- Whether a `Json` value is an object (a Python `dict`). -/
def jsonIsObj (j : Json) : Bool :=
  match j with
  | Json.obj _ => true
  | _ => false

/-- The element list of a `Json` array, else `[]`. -/
def jsonElems (j : Json) : List Json :=
  match j with
  | Json.arr elems => elems
  | _ => []

/-- Exceptions that the body of the inner `try` of `check_compliance` can
    raise after the parse outcome is fixed: `json.loads` failing
    (`JSONDecodeError`), or `.get` called on a non-dict (`AttributeError`). -/
inductive PyError where
  | jsonDecodeError
  | attributeError
deriving DecidableEq

/-- Lines 110-111 of `check_compliance`:
    `result = json.loads(json_text.strip())` followed by
    `return result.get("compliance_results", [])`, with the parse outcome
    passed in (`none` models a `json.JSONDecodeError`). -/
def checkComplianceBody (parsed : Option Json) : Except PyError Json :=
  match parsed with
  | none => Except.error PyError.jsonDecodeError
  | some r =>
      match r with
      | Json.obj fields =>
          Except.ok ((pyDictGet fields ("compliance_results")).getD (Json.arr []))
      | _ => Except.error PyError.attributeError

/-- What `check_compliance` hands back to its caller, plus whether the outer
    `except Exception` handler displayed an error banner (`st.error`). -/
structure ValidateOutput where
  value : Json
  errorSurfaced : Bool

/-- The full exception structure of lines 102-117: the inner
    `except (json.JSONDecodeError, KeyError)` returns `[]` silently; any other
    exception (e.g. the `AttributeError` from calling `.get` on a non-dict)
    falls through to the outer `except Exception`, which shows `st.error` and
    returns `[]`.  The function is total: no input makes it raise. -/
def validateParsed (parsed : Option Json) : ValidateOutput :=
  match checkComplianceBody parsed with
  | Except.ok v => { value := v, errorSurfaced := false }
  | Except.error PyError.jsonDecodeError => { value := Json.arr [], errorSurfaced := false }
  | Except.error PyError.attributeError => { value := Json.arr [], errorSurfaced := true }

/-- Lines 104-110 of `check_compliance`: strip whitespace, drop a leading
    ```` ```json ```` fence marker and a trailing ```` ``` ```` fence, strip
    again before parsing. -/
def stripJsonFence (s : String) : String :=
  let t := jsTrim s
  let t1 := if t.startsWith ("```json") then t.drop 7 else t
  let t2 := if t1.endsWith ("```") then t1.dropRight 3 else t1
  jsTrim t2

/-! ### The analysis-trigger block (lines 508-521) -/

/-- Lines 510-521: `results = check_compliance(...)`; the batch is installed
    into `st.session_state.compliance_results` only when `results` is truthy
    (non-empty); an empty batch leaves the previous findings in place and
    shows a warning instead. -/
def installResults (prior results : List Json) : List Json :=
  if results.isEmpty then prior else results

/-! ### SnippetLocator: the regex shapes built by `highlightSnippet`

The JavaScript builds only four regex shapes (all with flags `gi`):
the escaped literal, the literal wrapped in `\s*`, and the literal with
each whitespace run replaced by `[\s<br>]*` — the latter also used for the
whole-snippet fallback.  `PatTok` lists model these: a sequence of
case-insensitive literal chunks separated by star-quantified character
classes. -/

/-- One token of an embedded pattern. -/
inductive PatTok where
  | lit (cs : List Char)
  | wsStar
  | gapStar
deriving DecidableEq

/-- The character class `[\s<br>]`: whitespace or one of `<`, `b`, `r`, `>`
    (a JavaScript character class treats `<br>` as its individual
    characters). -/
def isGapChar (c : Char) : Bool :=
  isJsWhitespace c || c = '<' || c = 'b' || c = 'r' || c = '>'

/-- Length of the longest prefix whose characters satisfy `p`. -/
def countLeading (p : Char → Bool) : List Char → Nat
  | [] => 0
  | c :: rest => if p c then countLeading p rest + 1 else 0

/-- Exact (case-sensitive) prefix test. -/
def exactPrefix : List Char → List Char → Bool
  | [], _ => true
  | _ :: _, [] => false
  | c :: cs, d :: ds => c = d && exactPrefix cs ds

/-- Case-insensitive literal prefix match (the `i` flag); returns the
    remaining suffix on success. -/
def litPrefix? : List Char → List Char → Option (List Char)
  | [], s => some s
  | _ :: _, [] => none
  | c :: cs, d :: ds => if c.toLower = d.toLower then litPrefix? cs ds else none

/-- Match a token sequence at the head of `s`, returning the number of
    characters consumed.  Star tokens are greedy with backtracking, as in the
    JavaScript regex engine: the longest run of class characters is tried
    first, shrinking on failure of the remainder. -/
def matchToks : List PatTok → List Char → Option Nat
  | [], _ => some 0
  | PatTok.lit cs :: ts, s =>
      match litPrefix? cs s with
      | some rest => (matchToks ts rest).map (fun n => cs.length + n)
      | none => none
  | PatTok.wsStar :: ts, s =>
      (List.range (countLeading isJsWhitespace s + 1)).reverse.findSome?
        (fun k => (matchToks ts (s.drop k)).map (fun n => k + n))
  | PatTok.gapStar :: ts, s =>
      (List.range (countLeading isGapChar s + 1)).reverse.findSome?
        (fun k => (matchToks ts (s.drop k)).map (fun n => k + n))

/-- `RegExp.prototype.test`: does the pattern match at some position? -/
def testPat (p : List PatTok) (s : List Char) : Bool :=
  (List.range (s.length + 1)).any (fun i => (matchToks p (s.drop i)).isSome)

/-- A piece of the text produced by a global replace: an untouched character
    or a matched region. -/
inductive Seg where
  | plain (c : Char)
  | matched (m : List Char)
deriving DecidableEq

/-- The left-to-right scan of `String.prototype.replace` with a global regex:
    at each position the (greedy) match is taken if one exists; an empty
    match emits an empty region and advances one character, exactly as the
    JavaScript engine does.  The `fuel` argument only drives the structural
    recursion; `scanPattern` supplies enough of it (every step consumes at
    least one character, so `length + 1` steps always suffice). -/
def scanFuel (p : List PatTok) : Nat → List Char → List Seg
  | 0, _ => []
  | _ + 1, [] =>
      match matchToks p [] with
      | some _ => [Seg.matched []]
      | none => []
  | fuel + 1, c :: rest =>
      match matchToks p (c :: rest) with
      | some 0 => Seg.matched [] :: Seg.plain c :: scanFuel p fuel rest
      | some (n + 1) =>
          Seg.matched ((c :: rest).take (n + 1)) :: scanFuel p fuel ((c :: rest).drop (n + 1))
      | none => Seg.plain c :: scanFuel p fuel rest

/-- The segmentation of `s` by a global replace of pattern `p`. -/
def scanPattern (p : List PatTok) (s : List Char) : List Seg :=
  scanFuel p (s.length + 1) s

/-- Rebuild the text, rendering each matched region through `f` (the
    replacement callback / template of `String.replace`). -/
def renderSegs (f : List Char → List Char) : List Seg → List Char
  | [] => []
  | Seg.plain c :: rest => c :: renderSegs f rest
  | Seg.matched m :: rest => f m ++ renderSegs f rest

/-- The matched regions of a scan, in order (the `match` arguments the
    replacement callback receives). -/
def collectMatches : List Seg → List (List Char)
  | [] => []
  | Seg.plain _ :: rest => collectMatches rest
  | Seg.matched m :: rest => m :: collectMatches rest

/-! ### Clause splitting, filtering, cleanup, normalization -/

/-- The delimiter class of `splitIntoSentences`:
    `[。．！？\n]` (the `...` alternative is handled by the splitter). -/
def isSentenceDelim (c : Char) : Bool :=
  c = '。' || c = '．' || c = '！' || c = '？' || c = '\n'

/-- Split on `[。．！？\n]|\.\.\.` like `String.split` with a regex: each
    delimiter occurrence (a delimiter character, or a literal run of three
    dots) separates segments. -/
def splitSentencesAux : List Char → List Char → List (List Char)
  | [], acc => [acc.reverse]
  | '.' :: '.' :: '.' :: rest, acc => acc.reverse :: splitSentencesAux rest []
  | c :: rest, acc =>
      if isSentenceDelim c then acc.reverse :: splitSentencesAux rest []
      else splitSentencesAux rest (c :: acc)

/-- `splitIntoSentences` (lines 310-313): split on sentence delimiters and
    drop segments that are empty after trimming. -/
def splitIntoSentences (s : String) : List String :=
  ((splitSentencesAux s.data []).map String.mk).filter (fun t => 0 < (jsTrim t).length)

/-- The standalone speaker-label test `/^(顧客|店員)[：:]?$/`. -/
def isSpeakerLabel (t : String) : Bool :=
  t == ("顧客") || t == ("店員") || t == ("顧客：") || t == ("顧客:") ||
  t == ("店員：") || t == ("店員:")

/-- `/^(顧客|店員)[：:]\s*/`: strip a leading speaker label with a mandatory
    colon and following whitespace. -/
def stripLabelPrefix (cs : List Char) : List Char :=
  match cs with
  | a :: b :: c :: rest =>
      if ((a = '顧' ∧ b = '客') ∨ (a = '店' ∧ b = '員')) ∧ (c = '：' ∨ c = ':') then
        rest.dropWhile isJsWhitespace
      else cs
  | _ => cs

/-- The class `[\s\.\-…]` of stripped leading characters. -/
def isLeadJunk (c : Char) : Bool :=
  isJsWhitespace c || c = '.' || c = '-' || c = '…'

/-- The class `[。．！？]` of stripped trailing punctuation. -/
def isTrailPunct (c : Char) : Bool :=
  c = '。' || c = '．' || c = '！' || c = '？'

/-- Lines 351-355: label strip, leading-junk strip, trailing-punctuation
    strip, final trim. -/
def cleanSentence (t : String) : String :=
  jsTrim (String.mk
    ((((stripLabelPrefix t.data).dropWhile isLeadJunk).reverse.dropWhile isTrailPunct).reverse))

/-- Collapse every whitespace run to a single space (`replace(/\s+/g, ' ')`);
    the flag tracks whether the previous character was whitespace (i.e. the
    current run already emitted its space). -/
def collapseWsAux : Bool → List Char → List Char
  | _, [] => []
  | prevWs, c :: rest =>
      if isJsWhitespace c then
        if prevWs then collapseWsAux true rest
        else ' ' :: collapseWsAux true rest
      else c :: collapseWsAux false rest

/-- Collapse every whitespace run to a single space. -/
def collapseWs (cs : List Char) : List Char :=
  collapseWsAux false cs

/-- `normalizeText` (lines 316-318): collapse whitespace, then trim. -/
def normalizeText (t : String) : String :=
  jsTrim (String.mk (collapseWs t.data))

/-- Worker for `wsFlexTokens`: `acc` is the pending (reversed) literal chunk
    and `lastWs` whether the current whitespace run already emitted its
    `[\s<br>]*` token. -/
def wsFlexAux (acc : List Char) (lastWs : Bool) : List Char → List PatTok
  | [] => if acc.isEmpty then [] else [PatTok.lit acc.reverse]
  | c :: rest =>
      if isJsWhitespace c then
        if lastWs then wsFlexAux [] true rest
        else
          (if acc.isEmpty then [] else [PatTok.lit acc.reverse]) ++
            PatTok.gapStar :: wsFlexAux [] true rest
      else wsFlexAux (c :: acc) false rest

/-- `escaped.replace(/\s+/g, '[\s<br>]*')`: the literal split at whitespace
    runs, with a `[\s<br>]*` for each run (also leading/trailing ones). -/
def wsFlexTokens (cs : List Char) : List PatTok :=
  wsFlexAux [] false cs

/-- The three-pattern cascade of lines 363-370, in trial order: exact
    literal, literal with `\s*` wrappers, literal with whitespace runs
    widened to `[\s<br>]*`.  (Regex-metacharacter escaping makes the literal
    match literally, which the token embedding gives by construction.) -/
def clausePatterns (norm : String) : List (List PatTok) :=
  [[PatTok.lit norm.data],
   [PatTok.wsStar, PatTok.lit norm.data, PatTok.wsStar],
   wsFlexTokens norm.data]

/-- `cleanedSentence || trimmedSentence` (line 356). -/
def clauseSearchText (t : String) : String :=
  if cleanSentence t = "" then t else cleanSentence t

/-- The normalized search text derived from one raw sentence. -/
def clauseNorm (sentence : String) : String :=
  normalizeText (clauseSearchText (jsTrim sentence))

/-! ### The rendered document and the highlight markup -/

/-- The rendering of one document character inside `text-container`:
    `html.escape` (Python, `quote=True`) composed with
    `.replace(chr(10), "<br>")` — the escape outputs contain no newline, so
    the composition is character-wise. -/
def renderCharL (c : Char) : List Char :=
  if c = '&' then ("&amp;").data
  else if c = '<' then ("&lt;").data
  else if c = '>' then ("&gt;").data
  else if c = '"' then ("&quot;").data
  else if c = '\'' then ("&#x27;").data
  else if c = '\n' then ("<br>").data
  else [c]

/-- Character-wise rendering of a character list. -/
def renderChars : List Char → List Char
  | [] => []
  | c :: rest => renderCharL c ++ renderChars rest

/-- The initial `innerHTML` of `text-container` (line 283), also what
    `restoreText` (lines 418-420) writes back. -/
def renderDoc (doc : String) : String :=
  String.mk (renderChars doc.data)

/-- The `id` attribute given to a clause's highlight spans (line 374):
    clause index 0 is the scroll target. -/
def highlightId (idx : Nat) : String :=
  if idx = 0 then ("highlight-target") else ("highlight-") ++ toString idx

/-- The opening tag of a highlight span. -/
def spanOpenTag (id : String) : String :=
  ("<span class=\"highlight\" id=\"") ++ id ++ ("\">")

/-- The replacement template of line 377: the region is wrapped in a
    highlight span whose content is `m`. -/
def wrapSpan (idx : Nat) (m : List Char) : List Char :=
  (spanOpenTag (highlightId idx)).data ++ m ++ ("</span>").data

/-- A located span, as the specification's `LocatedSpan`: the clause it came
    from and the literal matched text (the `match` argument of the
    replacement callback). -/
structure Span where
  clauseIndex : Nat
  matchedText : String
deriving DecidableEq

/-- State threaded through the `sentences.forEach` loop of lines 345-382:
    the evolving `highlightedText`, the `foundMatch` flag, and the spans
    recorded so far. -/
structure LoopState where
  htext : List Char
  found : Bool
  spans : List Span
deriving DecidableEq

/-- One iteration of the clause loop (lines 345-382): skip short sentences
    and bare speaker labels; otherwise clean and normalize the clause, take
    the first pattern of the cascade whose `test` succeeds, and globally
    replace it over the whole current `highlightedText`. -/
def processSentence (st : LoopState) (idxSentence : Nat × String) : LoopState :=
  if (jsTrim idxSentence.2).length < 3 ∨ isSpeakerLabel (jsTrim idxSentence.2) then st
  else
    match (clausePatterns (clauseNorm idxSentence.2)).find?
        (fun p => testPat p st.htext) with
    | none => st
    | some p =>
        let segs := scanPattern p st.htext
        { htext := renderSegs (wrapSpan idxSentence.1) segs,
          found := st.found || !(collectMatches segs).isEmpty,
          spans := st.spans ++
            (collectMatches segs).map (fun m => Span.mk idxSentence.1 (String.mk m)) }

/-- The whole clause loop over the enumerated sentence list. -/
def processSentences (htext : List Char) (sentences : List String) : LoopState :=
  sentences.enum.foldl processSentence (LoopState.mk htext false [])

/-- Clause-level processing of a snippet against the restored document
    rendering (`textContent` of line 340 is taken right after
    `restoreText`). -/
def clauseLoop (doc snippet : String) : LoopState :=
  processSentences (renderDoc doc).data (splitIntoSentences snippet)

/-- The scan of the whole-snippet fallback (lines 406-407): the raw snippet,
    only whitespace-widened, globally replaced over the restored text. -/
def fallbackSegs (doc snippet : String) : List Seg :=
  scanPattern (wsFlexTokens snippet.data) (renderDoc doc).data

/-! ### HighlightSession: the `highlightSnippet` toggle -/

/-- The state of the document view: the immutable document, the mutable
    `innerHTML` of `text-container`, `currentHighlight`, `scrollTop`, and
    `lastScrollPosition` (the value the scroll listener of lines 304-307
    keeps).  The browser-layout-derived destination of the centering scroll
    is an input of `toggle`, not part of the state. -/
structure ViewState where
  doc : String
  innerHTML : String
  currentHighlight : Option String
  scrollTop : Nat
  lastScrollPosition : Nat
deriving DecidableEq

/-- The view as first rendered (line 283): plain escaped document. -/
def initView (doc : String) : ViewState :=
  ViewState.mk doc (renderDoc doc) none 0 0

/-- A user scroll event: the viewport moves and the listener of lines
    304-307 records the position. -/
def userScroll (st : ViewState) (pos : Nat) : ViewState :=
  { st with scrollTop := pos, lastScrollPosition := pos }

/-- The observable outcome of one `highlightSnippet` call. -/
inductive Outcome where
  | noop
  | cleared
  | applied (spans : List Span)
  | appliedFallback (ms : List String)
  | notFound
deriving DecidableEq

/-- `highlightSnippet(snippet)` (lines 321-415).  An empty snippet returns
    immediately.  Toggling the active snippet restores the text and re-applies
    the entry-time `scrollTop` (`currentScroll`, line 325).  Otherwise the
    text is restored first, the clause loop runs, and on `foundMatch` the
    marked-up text is installed and — when a `highlight-target` span (clause
    index 0) exists — the view scrolls to the layout-computed `scrollTarget`.
    If no clause matched, the whole-snippet fallback pattern is tried; if even
    that fails, the (already restored) view is left without highlight and
    `currentHighlight` is not changed. -/
def toggle (st : ViewState) (snippet : String) (scrollTarget : Nat) :
    ViewState × Outcome :=
  if snippet = "" then (st, Outcome.noop)
  else if st.currentHighlight = some snippet then
    ({ st with innerHTML := renderDoc st.doc, currentHighlight := none },
     Outcome.cleared)
  else if (clauseLoop st.doc snippet).found then
    ({ st with innerHTML := String.mk (clauseLoop st.doc snippet).htext,
               currentHighlight := some snippet,
               scrollTop :=
                 if (clauseLoop st.doc snippet).spans.any
                     (fun sp => sp.clauseIndex == 0)
                 then scrollTarget else st.scrollTop },
     Outcome.applied (clauseLoop st.doc snippet).spans)
  else if testPat (wsFlexTokens snippet.data) (renderDoc st.doc).data then
    ({ st with innerHTML := String.mk (renderSegs (fun _ => wrapSpan 0 snippet.data)
                              (fallbackSegs st.doc snippet)),
               currentHighlight := some snippet },
     Outcome.appliedFallback ((collectMatches (fallbackSegs st.doc snippet)).map String.mk))
  else
    ({ st with innerHTML := renderDoc st.doc }, Outcome.notFound)

/-- Maximum nesting depth of `<span ` / `</span>` tags in a rendered text
    (used to exhibit nested highlight markup); scans one character at a time
    (neither tag string can overlap a later occurrence of either). -/
def maxSpanDepth : List Char → Nat → Nat → Nat
  | [], _, m => m
  | c :: rest, d, m =>
      if exactPrefix (("<span ").data) (c :: rest) then
        maxSpanDepth rest (d + 1) (Nat.max m (d + 1))
      else if exactPrefix (("</span>").data) (c :: rest) then
        maxSpanDepth rest (d - 1) m
      else maxSpanDepth rest d m

/-! ### Side conditions used to state the amended claims -/

/-- Verbatim (case-sensitive) substring occurrence. -/
def isSubstring (s sub : String) : Bool :=
  (List.range (s.data.length + 1)).any (fun i => exactPrefix sub.data (s.data.drop i))

/-- A document none of whose characters are rewritten by the rendering of
    line 283 (no HTML-escaped character and no newline). -/
def docNoSpecial (doc : String) : Bool :=
  doc.data.all (fun c =>
    !(c = '&' || c = '<' || c = '>' || c = '"' || c = '\'' || c = '\n'))

/-! ### General lemmas about the embedded matcher and scanner -/

/-- A case-insensitive literal matches its own verbatim occurrence. -/
theorem litPrefix?_refl (cs t : List Char) : litPrefix? cs (cs ++ t) = some t := by
  induction cs with
  | nil => rfl
  | cons c cs ih => simp [litPrefix?, ih]

/-- Soundness of `litPrefix?`: the consumed prefix case-folds to the literal
    and the remainder is the corresponding suffix. -/
theorem litPrefix?_eq_some {cs s rest : List Char} (h : litPrefix? cs s = some rest) :
    (s.take cs.length).map Char.toLower = cs.map Char.toLower ∧
    rest = s.drop cs.length := by
  induction cs generalizing s rest with
  | nil =>
      simp only [litPrefix?, Option.some.injEq] at h
      simp [h]
  | cons c cs ih =>
      cases s with
      | nil => simp [litPrefix?] at h
      | cons d ds =>
          by_cases hc : c.toLower = d.toLower
          · simp only [litPrefix?, if_pos hc] at h
            obtain ⟨h1, h2⟩ := ih h
            refine ⟨?_, by simpa using h2⟩
            simp [List.take_succ_cons, h1, hc]
          · simp [litPrefix?, hc] at h

/-- `exactPrefix` exhibits an append decomposition. -/
theorem exactPrefix_append {sub s : List Char} (h : exactPrefix sub s = true) :
    ∃ t, s = sub ++ t := by
  induction sub generalizing s with
  | nil => exact ⟨s, rfl⟩
  | cons c cs ih =>
      cases s with
      | nil => simp [exactPrefix] at h
      | cons d ds =>
          simp only [exactPrefix, Bool.and_eq_true, decide_eq_true_eq] at h
          obtain ⟨t, ht⟩ := ih h.2
          exact ⟨t, by simp [h.1, ht]⟩

/-- A single-literal pattern matches exactly the literal's length, and the
    consumed text case-folds to the literal. -/
theorem matchToks_lit_eq {l s : List Char} {n : Nat}
    (h : matchToks [PatTok.lit l] s = some n) :
    n = l.length ∧ (s.take n).map Char.toLower = l.map Char.toLower := by
  unfold matchToks at h
  cases hp : litPrefix? l s with
  | none => rw [hp] at h; cases h
  | some rest =>
      rw [hp] at h
      simp [matchToks] at h
      obtain ⟨h1, _⟩ := litPrefix?_eq_some hp
      have hn : n = l.length := by omega
      exact ⟨hn, by rw [hn]; exact h1⟩

/-- A single-literal pattern succeeds on a verbatim occurrence. -/
theorem matchToks_lit_of_exact {sub s : List Char}
    (h : exactPrefix sub s = true) :
    matchToks [PatTok.lit sub] s = some sub.length := by
  obtain ⟨t, ht⟩ := exactPrefix_append h
  subst ht
  unfold matchToks
  rw [litPrefix?_refl]
  simp [matchToks]

/-- `test` succeeds when a verbatim occurrence exists. -/
theorem testPat_lit_of_isSubstring {s sub : String}
    (h : isSubstring s sub = true) :
    testPat [PatTok.lit sub.data] s.data = true := by
  unfold isSubstring at h
  rw [List.any_eq_true] at h
  obtain ⟨i, hi, hp⟩ := h
  unfold testPat
  rw [List.any_eq_true]
  refine ⟨i, hi, ?_⟩
  rw [matchToks_lit_of_exact hp]
  rfl

/-- A lone `[\s<br>]*` token always matches (possibly emptily). -/
theorem matchToks_gapStar_isSome (l : List Char) :
    (matchToks [PatTok.gapStar] l).isSome = true := by
  unfold matchToks
  rw [List.range_succ]
  simp [List.findSome?, matchToks]

/-- `test` of the degenerate whole-whitespace fallback pattern succeeds on
    any text. -/
theorem testPat_gapStar (l : List Char) : testPat [PatTok.gapStar] l = true := by
  unfold testPat
  rw [List.any_eq_true]
  exact ⟨0, by simp, by simpa using matchToks_gapStar_isSome l⟩

/-- A global replace whose pattern matches somewhere records at least one
    matched region (given enough fuel). -/
theorem collect_scanFuel_ne_nil {p : List PatTok} {s : List Char} {fuel : Nat}
    (hf : s.length < fuel) (h : testPat p s = true) :
    collectMatches (scanFuel p fuel s) ≠ [] := by
  induction fuel generalizing s with
  | zero => omega
  | succ fuel ih =>
      cases s with
      | nil =>
          unfold testPat at h
          simp only [List.any_eq_true] at h
          obtain ⟨i, _, hs⟩ := h
          have h0 : (matchToks p []).isSome = true := by
            simpa using hs
          unfold scanFuel
          cases hm : matchToks p [] with
          | none => rw [hm] at h0; simp at h0
          | some n => simp [collectMatches]
      | cons c rest =>
          unfold scanFuel
          cases hm : matchToks p (c :: rest) with
          | some n =>
              cases n with
              | zero => simp [collectMatches]
              | succ k => simp [collectMatches]
          | none =>
              have hlen : rest.length < fuel := by
                simp at hf; omega
              have hrest : testPat p rest = true := by
                unfold testPat at h ⊢
                rw [List.any_eq_true] at h ⊢
                obtain ⟨i, hi, hs⟩ := h
                cases i with
                | zero =>
                    rw [List.drop_zero] at hs
                    rw [hm] at hs
                    simp at hs
                | succ j =>
                    refine ⟨j, ?_, by simpa using hs⟩
                    simp at hi ⊢
                    omega
              simpa [collectMatches] using ih hlen hrest

/-- Every region matched by a single-literal global replace case-folds to the
    literal. -/
theorem scanFuel_lit_matches {l : List Char} {fuel : Nat} {s m : List Char}
    (hm : m ∈ collectMatches (scanFuel [PatTok.lit l] fuel s)) :
    m.map Char.toLower = l.map Char.toLower := by
  induction fuel generalizing s with
  | zero => simp [scanFuel, collectMatches] at hm
  | succ fuel ih =>
      cases s with
      | nil =>
          unfold scanFuel at hm
          cases hk : matchToks [PatTok.lit l] [] with
          | none => rw [hk] at hm; simp [collectMatches] at hm
          | some n =>
              rw [hk] at hm
              simp only [collectMatches, List.mem_cons, List.not_mem_nil,
                or_false] at hm
              obtain ⟨hn, h2⟩ := matchToks_lit_eq hk
              subst hm
              simpa using h2
      | cons c rest =>
          unfold scanFuel at hm
          cases hk : matchToks [PatTok.lit l] (c :: rest) with
          | none =>
              rw [hk] at hm
              simp only [collectMatches] at hm
              exact ih hm
          | some n =>
              rw [hk] at hm
              obtain ⟨hn, h2⟩ := matchToks_lit_eq hk
              cases n with
              | zero =>
                  simp only [collectMatches, List.mem_cons] at hm
                  rcases hm with hm0 | hmr
                  · subst hm0; simpa using h2
                  · exact ih hmr
              | succ k =>
                  simp only [collectMatches, List.mem_cons] at hm
                  rcases hm with hm0 | hmr
                  · subst hm0; exact h2
                  · exact ih hmr

/-- A scan that collected exactly one match splits into all-plain segments
    around it. -/
theorem collect_singleton {segs : List Seg} {l : List Char}
    (h : collectMatches segs = [l]) :
    ∃ pre post, segs = pre ++ Seg.matched l :: post ∧
      collectMatches pre = [] ∧ collectMatches post = [] := by
  induction segs with
  | nil => simp [collectMatches] at h
  | cons seg rest ih =>
      cases seg with
      | plain c =>
          simp only [collectMatches] at h
          obtain ⟨pre, post, h1, h2, h3⟩ := ih h
          exact ⟨Seg.plain c :: pre, post, by simp [h1],
            by simp [collectMatches, h2], h3⟩
      | matched m =>
          simp only [collectMatches, List.cons.injEq] at h
          exact ⟨[], rest, by simp [h.1], rfl, h.2⟩

/-- Rendering distributes over segment concatenation. -/
theorem renderSegs_append (f : List Char → List Char) (a b : List Seg) :
    renderSegs f (a ++ b) = renderSegs f a ++ renderSegs f b := by
  induction a with
  | nil => rfl
  | cons seg rest ih =>
      cases seg with
      | plain c => simp [renderSegs, ih]
      | matched m => simp [renderSegs, ih]

/-- Rendering a match-free segment list does not depend on the replacement. -/
theorem renderSegs_of_collect_nil {segs : List Seg}
    (h : collectMatches segs = []) (f g : List Char → List Char) :
    renderSegs f segs = renderSegs g segs := by
  induction segs with
  | nil => rfl
  | cons seg rest ih =>
      cases seg with
      | plain c =>
          simp only [collectMatches] at h
          simp [renderSegs, ih h]
      | matched m => simp [collectMatches] at h

/-- Escaped rendering is the identity on documents without special
    characters. -/
theorem renderChars_id {cs : List Char}
    (h : cs.all (fun c =>
      !(c = '&' || c = '<' || c = '>' || c = '"' || c = '\'' || c = '\n')) = true) :
    renderChars cs = cs := by
  induction cs with
  | nil => rfl
  | cons c rest ih =>
      simp only [List.all_cons, Bool.and_eq_true] at h
      have hc : renderCharL c = [c] := by
        unfold renderCharL
        have := h.1
        simp only [Bool.not_eq_true', Bool.or_eq_false_iff, decide_eq_false_iff_not] at this
        simp [this.1.1.1.1.1, this.1.1.1.1.2, this.1.1.1.2, this.1.1.2, this.1.2, this.2]
      rw [renderChars, hc, ih h.2]
      rfl

/-- `renderDoc` is the identity on documents without special characters. -/
theorem renderDoc_id {doc : String} (h : docNoSpecial doc = true) :
    renderDoc doc = doc := by
  cases doc with
  | mk data =>
      unfold renderDoc
      rw [renderChars_id (by simpa [docNoSpecial] using h)]

/-! ### Claims C1, C2, C3, C5 -/

/-- C1: the claim states that every finding returned by the validator has its
    confidence clamped into [0,100] (150 becomes 100).  The code performs no
    clamping: a parsed element with confidence 150 is returned verbatim, so
    the output finding's confidence is 150, not 100. -/
theorem C1_counterexample :
    (validateParsed (some (Json.obj [(("compliance_results"),
        Json.arr [Json.obj [(("item_no"), Json.num 1),
                            (("confidence"), Json.num 150)]])]))).value
      = Json.arr [Json.obj [(("item_no"), Json.num 1),
                            (("confidence"), Json.num 150)]] ∧
    jsonGet (Json.obj [(("item_no"), Json.num 1), (("confidence"), Json.num 150)])
        ("confidence") = some (Json.num 150) ∧
    Json.num 150 ≠ Json.num 100 := by
  refine ⟨rfl, rfl, ?_⟩
  intro h
  exact absurd (Json.num.inj h) (by decide)

/-- C1 (amended): the validator performs no clamping and no numeric coercion
    at all; the array stored under `compliance_results` is returned exactly as
    parsed, so every element's confidence field — in range or not — is
    preserved verbatim. -/
theorem C1_confidence_returned_verbatim (fields : List (String × Json))
    (elems : List Json)
    (h : pyDictGet fields ("compliance_results") = some (Json.arr elems)) :
    (validateParsed (some (Json.obj fields))).value = Json.arr elems ∧
    (jsonElems (validateParsed (some (Json.obj fields))).value).map
        (fun e => jsonGet e ("confidence"))
      = elems.map (fun e => jsonGet e ("confidence")) := by
  have hv : (validateParsed (some (Json.obj fields))).value = Json.arr elems := by
    simp only [validateParsed, checkComplianceBody, h, Option.getD]
  exact ⟨hv, by rw [hv]; rfl⟩

/-- C1 witness: instantiating the amended theorem at a concrete object whose
    single element carries confidence 150. -/
theorem C1_confidence_returned_verbatim_witness :
    (validateParsed (some (Json.obj [(("compliance_results"),
        Json.arr [Json.obj [(("confidence"), Json.num 150)]])]))).value
      = Json.arr [Json.obj [(("confidence"), Json.num 150)]] ∧
    (jsonElems (validateParsed (some (Json.obj [(("compliance_results"),
        Json.arr [Json.obj [(("confidence"), Json.num 150)]])]))).value).map
        (fun e => jsonGet e ("confidence"))
      = [Json.obj [(("confidence"), Json.num 150)]].map
        (fun e => jsonGet e ("confidence")) :=
  C1_confidence_returned_verbatim
    [(("compliance_results"), Json.arr [Json.obj [(("confidence"), Json.num 150)]])]
    [Json.obj [(("confidence"), Json.num 150)]] rfl

/-- C2: on every malformed parse outcome — unparseable text
    (`JSONDecodeError`), a parse result that is not a JSON object (whose
    `.get` raises `AttributeError`, caught by the outer handler), or an object
    lacking the `compliance_results` field — the validator returns the empty
    list and never propagates an exception (totality of `validateParsed`). -/
theorem C2_malformed_input_yields_empty (parsed : Option Json)
    (h : parsed = none ∨
         (∃ j, parsed = some j ∧ jsonIsObj j = false) ∨
         (∃ fields, parsed = some (Json.obj fields) ∧
            pyDictGet fields ("compliance_results") = none)) :
    (validateParsed parsed).value = Json.arr [] := by
  rcases h with h | ⟨j, hj, hobj⟩ | ⟨fields, hf, hget⟩
  · rw [h]; rfl
  · rw [hj]
    cases j with
    | obj fields => simp [jsonIsObj] at hobj
    | null => rfl
    | bool b => rfl
    | num n => rfl
    | str s => rfl
    | arr elems => rfl
  · rw [hf]
    simp only [validateParsed, checkComplianceBody, hget, Option.getD]

/-- C2 witness: the unparseable-text case, instantiated at `none`. -/
theorem C2_malformed_input_yields_empty_witness :
    (validateParsed none).value = Json.arr [] :=
  C2_malformed_input_yields_empty none (Or.inl rfl)

/-- C3: the claim states that elements lacking `item_no` are dropped and that
    missing fields receive empty/zero defaults.  The code does neither: an
    element with no `item_no` (and no defaults filled in) appears unchanged in
    the returned batch. -/
theorem C3_counterexample :
    (validateParsed (some (Json.obj [(("compliance_results"),
        Json.arr [Json.obj [(("status"), Json.str ("○"))]])]))).value
      = Json.arr [Json.obj [(("status"), Json.str ("○"))]] ∧
    jsonGet (Json.obj [(("status"), Json.str ("○"))]) ("item_no") = none ∧
    jsonGet (Json.obj [(("status"), Json.str ("○"))]) ("confidence") = none :=
  ⟨rfl, rfl, rfl⟩

/-- C3 (amended): the validator applies no per-element processing: every
    element of the parsed `compliance_results` array — including elements
    lacking `item_no` — is kept, unmodified, with no default substituted for
    any missing field. -/
theorem C3_elements_kept_verbatim (fields : List (String × Json))
    (elems : List Json) (e : Json)
    (h : pyDictGet fields ("compliance_results") = some (Json.arr elems))
    (he : e ∈ elems) (hno : jsonGet e ("item_no") = none) :
    e ∈ jsonElems (validateParsed (some (Json.obj fields))).value ∧
    jsonGet e ("item_no") = none := by
  have hv : (validateParsed (some (Json.obj fields))).value = Json.arr elems := by
    simp only [validateParsed, checkComplianceBody, h, Option.getD]
  rw [hv]
  exact ⟨he, hno⟩

/-- C3 witness: a concrete element without `item_no` survives validation. -/
theorem C3_elements_kept_verbatim_witness :
    Json.obj [(("reason"), Json.str ("r"))] ∈
      jsonElems (validateParsed (some (Json.obj [(("compliance_results"),
        Json.arr [Json.obj [(("reason"), Json.str ("r"))]])]))).value ∧
    jsonGet (Json.obj [(("reason"), Json.str ("r"))]) ("item_no") = none :=
  C3_elements_kept_verbatim
    [(("compliance_results"), Json.arr [Json.obj [(("reason"), Json.str ("r"))]])]
    [Json.obj [(("reason"), Json.str ("r"))]]
    (Json.obj [(("reason"), Json.str ("r"))]) rfl (List.mem_singleton.mpr rfl) rfl

/-- C5: the claim states that a run yielding zero findings clears the prior
    batch.  The install step is guarded by Python truthiness (`if results:`),
    so an empty batch leaves the prior findings untouched. -/
theorem C5_counterexample :
    installResults [Json.num 1] [] = [Json.num 1] ∧
    ([Json.num 1] : List Json) ≠ [] :=
  ⟨rfl, by simp⟩

/-- C5 (amended): a non-empty batch replaces the prior findings wholesale (no
    merge), but an empty batch is never installed: the prior batch is kept. -/
theorem C5_nonempty_replaces_empty_keeps (prior results : List Json)
    (h : results ≠ []) :
    installResults prior results = results ∧ installResults prior [] = prior := by
  constructor
  · simp [installResults, h]
  · rfl

/-- C5 witness: replacement happens for a concrete non-empty batch. -/
theorem C5_nonempty_replaces_empty_keeps_witness :
    installResults [Json.num 1] [Json.num 2] = [Json.num 2] ∧
    installResults [Json.num 1] [] = [Json.num 1] :=
  C5_nonempty_replaces_empty_keeps [Json.num 1] [Json.num 2] (by simp)

/-! ### Claims C4, C6, C7, C8, C9: concrete counterexamples and a bug trace -/

/-- C4: the claim states that a whitespace-only snippet yields no spans and
    no highlight.  `"   "` is truthy in JavaScript, the clause loop drops
    every (empty-after-trim) sentence, and the fallback pattern degenerates to
    `[\s<br>]*`, which matches everywhere: the toggle installs highlight
    markup over the whole view and records matches. -/
theorem C4_counterexample :
    (toggle (initView ("ab")) ("   ") 0).2
      = Outcome.appliedFallback [(""), ("b"), ("")] ∧
    (toggle (initView ("ab")) ("   ") 0).1.innerHTML ≠ renderDoc ("ab") ∧
    (toggle (initView ("ab")) ("   ") 0).1.currentHighlight = some ("   ") :=
  ⟨rfl, by decide, rfl⟩

/-- C6: the claim states that a not-found toggle leaves the document view
    unmodified, including the markup of a previously highlighted finding.
    But `restoreText()` runs before the search (line 336), so the previous
    highlight markup is wiped even when the new snippet is not found. -/
theorem C6_counterexample :
    (toggle (toggle (initView ("abc")) ("abc") 7).1 ("zzzz") 9).2
      = Outcome.notFound ∧
    (toggle (toggle (initView ("abc")) ("abc") 7).1 ("zzzz") 9).1.innerHTML
      ≠ (toggle (initView ("abc")) ("abc") 7).1.innerHTML :=
  ⟨rfl, by decide⟩

/-- C7: the user scrolls to 100 (captured by the listener into
    `lastScrollPosition`), a toggle applies a highlight and scrolls the
    viewport to 500, and toggling the same finding again clears.  The code
    re-applies the entry-time `scrollTop` (line 325/331), leaving the view at
    500 — the highlight's position — while the continuously captured offset
    (100) is never consulted. -/
theorem C7_clear_keeps_highlight_position :
    (toggle (toggle (userScroll (initView ("abc")) 100) ("abc") 500).1
        ("abc") 999).2 = Outcome.cleared ∧
    (toggle (toggle (userScroll (initView ("abc")) 100) ("abc") 500).1
        ("abc") 999).1.scrollTop = 500 ∧
    (toggle (toggle (userScroll (initView ("abc")) 100) ("abc") 500).1
        ("abc") 999).1.lastScrollPosition = 100 ∧
    (toggle (toggle (userScroll (initView ("abc")) 100) ("abc") 500).1
          ("abc") 999).1.scrollTop ≠
      (toggle (toggle (userScroll (initView ("abc")) 100) ("abc") 500).1
          ("abc") 999).1.lastScrollPosition :=
  ⟨rfl, rfl, rfl, by decide⟩

/-- C8: the claim states that a snippet occurring verbatim in the document
    produces a span whose `matchedText` equals the trimmed snippet.  Clause
    splitting removes the trailing `。`, so the only span's matched text is
    the snippet without its final character. -/
theorem C8_counterexample :
    (toggle (initView ("ありがとうございます。")) ("ありがとうございます。") 5).2
      = Outcome.applied [Span.mk 0 ("ありがとうございます")] ∧
    jsTrim ("ありがとうございます。") = ("ありがとうございます。") ∧
    ("ありがとうございます" : String) ≠ ("ありがとうございます。") :=
  ⟨rfl, rfl, by decide⟩

/-- C9: the claim states that a later clause whose pattern overlaps an
    already-highlighted region skips re-tagging, so nested markup never
    arises.  Clause 1 (`def`) matches inside the region highlighted by clause
    0 (`abcdef`) and is wrapped again: the resulting view contains a
    highlight span nested inside another (tag depth 2). -/
theorem C9_counterexample :
    (toggle (initView ("abcdef")) ("abcdef。def") 5).2
      = Outcome.applied [Span.mk 0 ("abcdef"), Span.mk 1 ("def")] ∧
    (toggle (initView ("abcdef")) ("abcdef。def") 5).1.innerHTML
      = ("<span class=\"highlight\" id=\"highlight-target\">abc<span class=\"highlight\" id=\"highlight-1\">def</span></span>") ∧
    maxSpanDepth (toggle (initView ("abcdef")) ("abcdef。def") 5).1.innerHTML.data 0 0
      = 2 :=
  ⟨rfl, rfl, rfl⟩

/-- C6 (amended): when a toggle finds nothing, `activeSnippetKey`
    (`currentHighlight`) and the scroll offsets are indeed unchanged, but the
    document view is NOT left unmodified: `restoreText()` has already reset it
    to the plain rendered document, so any previously highlighted finding
    loses its markup. -/
theorem C6_notfound_resets_to_plain_view (st : ViewState) (snippet : String)
    (target : Nat) (h : (toggle st snippet target).2 = Outcome.notFound) :
    (toggle st snippet target).1.innerHTML = renderDoc st.doc ∧
    (toggle st snippet target).1.currentHighlight = st.currentHighlight ∧
    (toggle st snippet target).1.scrollTop = st.scrollTop ∧
    (toggle st snippet target).1.lastScrollPosition = st.lastScrollPosition := by
  by_cases h1 : snippet = ""
  · simp only [toggle, if_pos h1] at h
    exact Outcome.noConfusion h
  by_cases h2 : st.currentHighlight = some snippet
  · simp only [toggle, if_neg h1, if_pos h2] at h
    exact Outcome.noConfusion h
  by_cases h3 : (clauseLoop st.doc snippet).found = true
  · simp only [toggle, if_neg h1, if_neg h2, if_pos h3] at h
    exact Outcome.noConfusion h
  by_cases h4 : testPat (wsFlexTokens snippet.data) (renderDoc st.doc).data = true
  · simp only [toggle, if_neg h1, if_neg h2, if_neg h3, if_pos h4] at h
    exact Outcome.noConfusion h
  · simp only [toggle, if_neg h1, if_neg h2, if_neg h3, if_neg h4]
    refine ⟨?_, ?_, ?_, ?_⟩ <;> trivial

/-- C6 witness: the amended behaviour at the concrete not-found toggle of the
    counterexample trace. -/
theorem C6_notfound_resets_to_plain_view_witness :
    (toggle (toggle (initView ("abc")) ("abc") 7).1 ("zzzz") 9).1.innerHTML
      = renderDoc ((toggle (initView ("abc")) ("abc") 7).1.doc) ∧
    (toggle (toggle (initView ("abc")) ("abc") 7).1 ("zzzz") 9).1.currentHighlight
      = (toggle (initView ("abc")) ("abc") 7).1.currentHighlight ∧
    (toggle (toggle (initView ("abc")) ("abc") 7).1 ("zzzz") 9).1.scrollTop
      = (toggle (initView ("abc")) ("abc") 7).1.scrollTop ∧
    (toggle (toggle (initView ("abc")) ("abc") 7).1 ("zzzz") 9).1.lastScrollPosition
      = (toggle (initView ("abc")) ("abc") 7).1.lastScrollPosition :=
  C6_notfound_resets_to_plain_view (toggle (initView ("abc")) ("abc") 7).1
    ("zzzz") 9 rfl

/-- C4 (amended): the empty snippet is rejected up front (no spans, no state
    change), but a whitespace-only snippet is truthy: every clause is dropped,
    the fallback pattern degenerates to the always-matching `[\s<br>]*`, and a
    fallback highlight with at least one recorded match is applied. -/
theorem C4_empty_vs_whitespace_snippet (st : ViewState) (target : Nat)
    (h : st.currentHighlight ≠ some ("   ")) :
    toggle st ("") target = (st, Outcome.noop) ∧
    ∃ ms, (toggle st ("   ") target).2 = Outcome.appliedFallback ms ∧ ms ≠ [] := by
  constructor
  · rfl
  · have hloop : (clauseLoop st.doc ("   ")).found = false := rfl
    have htok : wsFlexTokens ("   ").data = [PatTok.gapStar] := rfl
    have htest : testPat (wsFlexTokens ("   ").data) (renderDoc st.doc).data = true := by
      rw [htok]
      exact testPat_gapStar _
    refine ⟨(collectMatches (fallbackSegs st.doc ("   "))).map String.mk, ?_, ?_⟩
    · simp only [toggle, if_neg (by decide : ¬("   " : String) = ""), if_neg h,
        if_neg (by rw [hloop]; simp : ¬((clauseLoop st.doc ("   ")).found = true)),
        if_pos htest]
    · have hne : collectMatches (fallbackSegs st.doc ("   ")) ≠ [] := by
        unfold fallbackSegs scanPattern
        exact collect_scanFuel_ne_nil (by omega) htest
      intro hmapnil
      exact hne (by simpa using hmapnil)

/-- C4 witness: the amended behaviour at the concrete document `"ab"`. -/
theorem C4_empty_vs_whitespace_snippet_witness :
    toggle (initView ("ab")) ("") 0 = (initView ("ab"), Outcome.noop) ∧
    ∃ ms, (toggle (initView ("ab")) ("   ") 0).2 = Outcome.appliedFallback ms ∧
      ms ≠ [] :=
  C4_empty_vs_whitespace_snippet (initView ("ab")) 0 (by decide)

/-- C9 (amended): there is no overlap check at all.  When a later clause's
    first passing pattern is found, its global replace is applied across the
    ENTIRE current `highlightedText` — including inside regions already
    wrapped by earlier clauses — so overlapping clauses re-tag highlighted
    regions and produce nested markup. -/
theorem C9_later_clause_retags_whole_text (st : LoopState) (idx : Nat)
    (sentence : String) (p : List PatTok)
    (h1 : ¬ (jsTrim sentence).length < 3)
    (h2 : isSpeakerLabel (jsTrim sentence) = false)
    (h3 : (clausePatterns (clauseNorm sentence)).find?
        (fun q => testPat q st.htext) = some p) :
    processSentence st (idx, sentence) =
      LoopState.mk (renderSegs (wrapSpan idx) (scanPattern p st.htext)) true
        (st.spans ++ (collectMatches (scanPattern p st.htext)).map
          (fun m => Span.mk idx (String.mk m))) := by
  have htest : testPat p st.htext = true := by
    simpa using List.find?_some h3
  have hms : collectMatches (scanPattern p st.htext) ≠ [] := by
    unfold scanPattern
    exact collect_scanFuel_ne_nil (by omega) htest
  have hcond : ¬((jsTrim sentence).length < 3 ∨
      isSpeakerLabel (jsTrim sentence) = true) := by
    push_neg
    exact ⟨by omega, by simp [h2]⟩
  have hfound : (st.found || !(collectMatches (scanPattern p st.htext)).isEmpty)
      = true := by
    cases hcc : collectMatches (scanPattern p st.htext) with
    | nil => exact absurd hcc hms
    | cons a b => simp
  unfold processSentence
  rw [if_neg hcond]
  simp only [h3, hfound]

/-- C9 amended witness: clause `"def"` (index 1), whose pattern is found in a
    text whose `abcdef` is already wrapped, is re-applied across the whole
    marked-up text. -/
theorem C9_later_clause_retags_whole_text_witness :
    processSentence
        (LoopState.mk
          ("<span class=\"highlight\" id=\"highlight-target\">abcdef</span>").data
          true [Span.mk 0 ("abcdef")])
        (1, ("def")) =
      LoopState.mk
        (renderSegs (wrapSpan 1)
          (scanPattern [PatTok.lit ("def").data]
            ("<span class=\"highlight\" id=\"highlight-target\">abcdef</span>").data))
        true
        ([Span.mk 0 ("abcdef")] ++
          (collectMatches
            (scanPattern [PatTok.lit ("def").data]
              ("<span class=\"highlight\" id=\"highlight-target\">abcdef</span>").data)).map
            (fun m => Span.mk 1 (String.mk m))) :=
  C9_later_clause_retags_whole_text
    (LoopState.mk
      ("<span class=\"highlight\" id=\"highlight-target\">abcdef</span>").data
      true [Span.mk 0 ("abcdef")])
    1 ("def") [PatTok.lit ("def").data] (by decide) (by decide) (by decide)

/-- C10: on the whole-snippet fallback path the replacement template embeds
    the raw snippet itself (line 410), not the matched document substring: the
    resulting view equals the scan rendered with the constant-snippet wrapper,
    and — whenever the single matched region differs from the snippet — it
    differs from what wrapping the matched text (as the clause path does)
    would have produced, i.e. the rendered document content is changed. -/
theorem C10_fallback_inserts_raw_snippet (st : ViewState) (snippet : String)
    (target : Nat) (m : String)
    (h : (toggle st snippet target).2 = Outcome.appliedFallback [m])
    (hne : m ≠ snippet) :
    (toggle st snippet target).1.innerHTML
        = String.mk (renderSegs (fun _ => wrapSpan 0 snippet.data)
            (fallbackSegs st.doc snippet)) ∧
    (toggle st snippet target).1.innerHTML
        ≠ String.mk (renderSegs (wrapSpan 0) (fallbackSegs st.doc snippet)) := by
  by_cases h1 : snippet = ""
  · simp only [toggle, if_pos h1] at h
    exact Outcome.noConfusion h
  by_cases h2 : st.currentHighlight = some snippet
  · simp only [toggle, if_neg h1, if_pos h2] at h
    exact Outcome.noConfusion h
  by_cases h3 : (clauseLoop st.doc snippet).found = true
  · simp only [toggle, if_neg h1, if_neg h2, if_pos h3] at h
    exact Outcome.noConfusion h
  by_cases h4 : testPat (wsFlexTokens snippet.data) (renderDoc st.doc).data = true
  case neg =>
    simp only [toggle, if_neg h1, if_neg h2, if_neg h3, if_neg h4] at h
    exact Outcome.noConfusion h
  simp only [toggle, if_neg h1, if_neg h2, if_neg h3, if_pos h4] at h ⊢
  have hmap : (collectMatches (fallbackSegs st.doc snippet)).map String.mk
      = [m] := by
    simpa using h
  obtain ⟨l, hl, hlm⟩ : ∃ l, collectMatches (fallbackSegs st.doc snippet) = [l] ∧
      String.mk l = m := by
    cases hc : collectMatches (fallbackSegs st.doc snippet) with
    | nil => rw [hc] at hmap; simp at hmap
    | cons a b =>
        rw [hc] at hmap
        cases b with
        | nil =>
            simp only [List.map_cons, List.map_nil, List.cons.injEq,
              and_true] at hmap
            exact ⟨a, rfl, hmap⟩
        | cons a2 b2 => simp at hmap
  refine ⟨trivial, ?_⟩
  obtain ⟨pre, post, hsegs, hpre, hpost⟩ := collect_singleton hl
  intro heq
  have heq2 : renderSegs (fun _ => wrapSpan 0 snippet.data)
        (fallbackSegs st.doc snippet)
      = renderSegs (wrapSpan 0) (fallbackSegs st.doc snippet) :=
    congrArg String.data heq
  rw [hsegs, renderSegs_append, renderSegs_append,
    renderSegs_of_collect_nil hpre (fun _ => wrapSpan 0 snippet.data) (wrapSpan 0)]
    at heq2
  have heq3 := List.append_cancel_left heq2
  simp only [renderSegs] at heq3
  rw [renderSegs_of_collect_nil hpost (fun _ => wrapSpan 0 snippet.data)
    (wrapSpan 0)] at heq3
  have heq4 := List.append_cancel_right heq3
  unfold wrapSpan at heq4
  have heq5 := List.append_cancel_right heq4
  have heq6 : snippet.data = l := List.append_cancel_left heq5
  apply hne
  rw [← hlm, ← heq6]

/-- C10 witness: snippet `"ab\ncd"` (clauses too short, so only the fallback
    matches) located in document `"ab cd"`: the matched text is `"ab cd"` but
    the inserted span content is the raw `"ab\ncd"`. -/
theorem C10_fallback_inserts_raw_snippet_witness :
    (toggle (initView ("ab cd")) ("ab\ncd") 0).1.innerHTML
        = String.mk (renderSegs (fun _ => wrapSpan 0 ("ab\ncd").data)
            (fallbackSegs ((initView ("ab cd")).doc) ("ab\ncd"))) ∧
    (toggle (initView ("ab cd")) ("ab\ncd") 0).1.innerHTML
        ≠ String.mk (renderSegs (wrapSpan 0)
            (fallbackSegs ((initView ("ab cd")).doc) ("ab\ncd"))) :=
  C10_fallback_inserts_raw_snippet (initView ("ab cd")) ("ab\ncd") 0 ("ab cd")
    rfl (by decide)

/-- C8 (amended): the matched text of a span is the (cleaned, normalized)
    clause, not the trimmed snippet, so the claim holds only for snippets the
    clause pipeline leaves untouched.  Precisely: if the snippet survives
    clause splitting as itself (`splitIntoSentences snippet = [snippet]`), is
    not filtered, is left unchanged by trimming/cleanup/normalization, and
    occurs verbatim in an escape-free document, then the toggle applies at
    least one span, every span comes from clause 0, and every span's matched
    text equals the snippet up to the case folding of the `i` regex flag. -/
theorem C8_verbatim_clause_match (st : ViewState) (snippet : String)
    (target : Nat)
    (hne : st.currentHighlight ≠ some snippet)
    (hdoc : docNoSpecial st.doc = true)
    (hsub : isSubstring st.doc snippet = true)
    (hsplit : splitIntoSentences snippet = [snippet])
    (hlen : 3 ≤ (jsTrim snippet).length)
    (hlab : isSpeakerLabel (jsTrim snippet) = false)
    (hnorm : clauseNorm snippet = snippet) :
    ∃ spans, (toggle st snippet target).2 = Outcome.applied spans ∧ spans ≠ [] ∧
      ∀ sp ∈ spans, sp.clauseIndex = 0 ∧
        sp.matchedText.data.map Char.toLower
          = snippet.data.map Char.toLower := by
  have hsne : snippet ≠ "" := by
    intro he
    rw [he] at hlen
    simp [jsTrim] at hlen
  have hrd : renderDoc st.doc = st.doc := renderDoc_id hdoc
  have htest : testPat [PatTok.lit snippet.data] (renderDoc st.doc).data
      = true := by
    rw [hrd]
    exact testPat_lit_of_isSubstring hsub
  have hfind : (clausePatterns (clauseNorm snippet)).find?
      (fun q => testPat q ((renderDoc st.doc).data))
      = some [PatTok.lit snippet.data] := by
    rw [hnorm]
    exact List.find?_cons_of_pos _ htest
  have hcond : ¬((jsTrim snippet).length < 3 ∨
      isSpeakerLabel (jsTrim snippet) = true) := by
    push_neg
    exact ⟨by omega, by simp [hlab]⟩
  have hps : processSentence (LoopState.mk (renderDoc st.doc).data false [])
        (0, snippet)
      = LoopState.mk
          (renderSegs (wrapSpan 0)
            (scanPattern [PatTok.lit snippet.data] (renderDoc st.doc).data))
          (false || !(collectMatches
            (scanPattern [PatTok.lit snippet.data]
              (renderDoc st.doc).data)).isEmpty)
          ([] ++ (collectMatches
            (scanPattern [PatTok.lit snippet.data]
              (renderDoc st.doc).data)).map
              (fun m => Span.mk 0 (String.mk m))) := by
    unfold processSentence
    rw [if_neg hcond]
    simp only [hfind]
  have hloopeq : clauseLoop st.doc snippet
      = processSentence (LoopState.mk (renderDoc st.doc).data false [])
          (0, snippet) := by
    unfold clauseLoop processSentences
    rw [hsplit]
    rfl
  have hmsne : collectMatches
      (scanPattern [PatTok.lit snippet.data] (renderDoc st.doc).data) ≠ [] := by
    unfold scanPattern
    exact collect_scanFuel_ne_nil (by omega) htest
  have hfoundT : (clauseLoop st.doc snippet).found = true := by
    rw [hloopeq, hps]
    cases hcc : collectMatches
        (scanPattern [PatTok.lit snippet.data] (renderDoc st.doc).data) with
    | nil => exact absurd hcc hmsne
    | cons a b => simp [hcc]
  refine ⟨(clauseLoop st.doc snippet).spans, ?_, ?_, ?_⟩
  · simp only [toggle, if_neg hsne, if_neg hne, if_pos hfoundT]
  · rw [hloopeq, hps]
    simp only [List.nil_append]
    intro hmapnil
    exact hmsne (by simpa using hmapnil)
  · intro sp hsp
    rw [hloopeq, hps] at hsp
    simp only [List.nil_append, List.mem_map] at hsp
    obtain ⟨m, hm, rfl⟩ := hsp
    refine ⟨rfl, ?_⟩
    unfold scanPattern at hm
    exact scanFuel_lit_matches hm

/-- C8 witness: the pipeline-invariant snippet `"こんにちは"` located verbatim
    in the document `"こんにちは"`. -/
theorem C8_verbatim_clause_match_witness :
    ∃ spans, (toggle (initView ("こんにちは")) ("こんにちは") 0).2
        = Outcome.applied spans ∧ spans ≠ [] ∧
      ∀ sp ∈ spans, sp.clauseIndex = 0 ∧
        sp.matchedText.data.map Char.toLower
          = ("こんにちは").data.map Char.toLower :=
  C8_verbatim_clause_match (initView ("こんにちは")) ("こんにちは") 0
    (by decide) (by decide) (by decide) (by decide) (by decide) (by decide)
    (by decide)
